import Mathlib

/-!
Verification development for the dci-icon-theme packaging tool
(src/main.cpp).  The container tree, the CSV-like alias parser, the
per-icon builder, the dark-theme maintenance mode and the driver loop
are embedded as executable Lean definitions, and the spec's testable
properties are settled as theorems below.
-/

namespace DciIconTheme

/-! ## Container tree model

Modelled from the spec: the `DDciFile` container collaborator is an
external library (spec section 6), exposed to the core as an abstract
tree of Directory / File / Link nodes with `mkdir`, `writeFile`,
`link`, `list`, `type`, `exists` operations.  Paths are slash-separated
strings; the tree stores nodes keyed by their component list, in
insertion order.  Per spec section 3, `mkdir`/`writeFile`/`link` fail on
an already-existing target or a missing parent directory, and link
targets must resolve at creation time. -/

/-- A node payload: directory, file with opaque encoded bytes
(abstracted as a `Nat`), or an internal link storing the raw target
path string. -/
inductive Entry where
  | dir : Entry
  | file (data : Nat) : Entry
  | lnk (target : String) : Entry
deriving DecidableEq

/-- The node kinds reported by `type` (DDciFile::FileType: Directory,
File, Symlink, UnknowFile). -/
inductive NodeType where
  | directory : NodeType
  | fileNode : NodeType
  | linkNode : NodeType
  | unknown : NodeType
deriving DecidableEq

/-- A container tree: the list of (path components, payload) pairs in
insertion order.  The root `/` is implicit. -/
structure DciTree where
  nodes : List (List String × Entry)
deriving DecidableEq

/-- Split a character list at every occurrence of `sep` into (possibly
empty) sections, as `QByteArray::split` and `QString::split` do. -/
def splitChar (sep : Char) : List Char → List (List Char)
  | [] => [[]]
  | c :: rest =>
    match splitChar sep rest with
    | s :: ss => if c = sep then [] :: s :: ss else (c :: s) :: ss
    | [] => [[c]]

/-- Does the string end with the given suffix? -/
def strEndsWith (s suf : String) : Bool :=
  decide (s.data.reverse.take suf.data.length = suf.data.reverse)

/-- Split a path string on `/`, dropping empty components (so
`"/256/normal.light"` becomes `["256", "normal.light"]`). -/
def splitPath (s : String) : List String :=
  ((splitChar '/' s.data).map String.mk).filter (fun c => c != "")

/-- Canonical string form of a component path. -/
def joinPath (p : List String) : String :=
  "/" ++ String.intercalate "/" p

/-- Find the payload stored at a component path. -/
def lookupNode (t : DciTree) (p : List String) : Option Entry :=
  (t.nodes.find? (fun pe => pe.1 = p)).map (fun pe => pe.2)

/-- The `exists(path)` operation: the root always exists; other paths exist when a
node is stored there. -/
def existsPath (t : DciTree) (s : String) : Bool :=
  decide (splitPath s = []) || (lookupNode t (splitPath s)).isSome

/-- The `type(path)` operation. -/
def typeOf (t : DciTree) (s : String) : NodeType :=
  if splitPath s = [] then NodeType.directory
  else
    match lookupNode t (splitPath s) with
    | some Entry.dir => NodeType.directory
    | some (Entry.file _) => NodeType.fileNode
    | some (Entry.lnk _) => NodeType.linkNode
    | none => NodeType.unknown

/-- Is the component path an existing directory (the root counts)? -/
def isDirPath (t : DciTree) (p : List String) : Bool :=
  decide (p = []) || decide (lookupNode t p = some Entry.dir)

/-- The `mkdir(path)` operation: fails (`none`) if the path is the root, already
exists, or its parent is not a directory. -/
def mkdir (t : DciTree) (s : String) : Option DciTree :=
  let p := splitPath s
  if p = [] then none
  else if existsPath t s then none
  else if isDirPath t p.dropLast then some ⟨t.nodes ++ [(p, Entry.dir)]⟩
  else none

/-- The `writeFile(path, data)` operation: fails if the path is the root, already
exists, or its parent is not a directory. -/
def writeFile (t : DciTree) (s : String) (data : Nat) : Option DciTree :=
  let p := splitPath s
  if p = [] then none
  else if existsPath t s then none
  else if isDirPath t p.dropLast then some ⟨t.nodes ++ [(p, Entry.file data)]⟩
  else none

/-- The `link(sourceFile, to)` operation: creates a Link node at `to` whose target is
the `sourceFile` path string.  Fails on a dangling source, an existing
destination or a missing parent. -/
def linkNode (t : DciTree) (src dst : String) : Option DciTree :=
  let p := splitPath dst
  if existsPath t src = false then none
  else if p = [] then none
  else if existsPath t dst then none
  else if isDirPath t p.dropLast then some ⟨t.nodes ++ [(p, Entry.lnk src)]⟩
  else none

/-- The `list(dir, onlyFileName)` operation: the immediate children of `dir` in
insertion order; full canonical paths when `onlyFileName` is false,
bare names when it is true. -/
def listDir (t : DciTree) (s : String) (onlyFileName : Bool) : List String :=
  let p := splitPath s
  t.nodes.filterMap fun pe =>
    match pe.1.getLast? with
    | some n =>
      if pe.1.dropLast = p then some (if onlyFileName then n else joinPath pe.1) else none
    | none => none

/-! ## Mirror (`recursionLink`, main.cpp lines 59-76)

For each child of `fromDir` (listed with bare names, snapshot taken on
entry): a directory is `mkdir`ed under `targetDir` and recursed into, a
leaf gets a Link back to the original path.  Any `mkdir`/`link` failure
returns `false` immediately.  A fuel argument makes the recursion
structurally terminating; callers pass more fuel than the tree depth. -/

def recursionLinkF : Nat → DciTree → String → String → DciTree × Bool
  | 0, t, _, _ => (t, false)
  | fuel + 1, t, fromDir, targetDir =>
    (listDir t fromDir true).foldl
      (fun st i =>
        if st.2 = false then st
        else
          let filePath := fromDir ++ "/" ++ i
          let targetFile := targetDir ++ "/" ++ i
          if typeOf st.1 filePath = NodeType.directory then
            match mkdir st.1 targetFile with
            | none => (st.1, false)
            | some t1 => recursionLinkF fuel t1 filePath targetFile
          else
            match linkNode st.1 filePath targetFile with
            | none => (st.1, false)
            | some t1 => (t1, true))
      (t, true)

/-- The `recursionLink` entry point, with enough fuel for any subtree of `t` (depth is
bounded by the node count). -/
def recursionLink (t : DciTree) (fromDir targetDir : String) : DciTree × Bool :=
  recursionLinkF (t.nodes.length + 1) t fromDir targetDir

/-! ## Alias-file parser (main.cpp lines 78-126)

`readNextSection` reads one field from the byte stream: an unquoted
field ends at the first `,` (consumed) or before a line terminator
(peeked, not consumed); a `"` switches to quoted mode, where the field
ends at the next `"` (skipping one following `,` if present) and may
span several physical lines.  The result is whitespace-trimmed.
`parseIconFileSymlinkMap` repeatedly reads a key field and a value
field, splits the value on embedded line terminators, inserts every
`(key, value-line)` pair into the multimap (QMultiHash::insert is
unconditional), then discards the rest of the physical line.  The
multimap is modelled as the list of inserted pairs. -/

/-- ASCII whitespace as recognised by `QByteArray::trimmed`. -/
def isSpaceByte (c : Char) : Bool :=
  c == ' ' || c == '\t' || c == '\n' || c == '\x0b' || c == '\x0c' || c == '\r'

/-- Strip leading and trailing ASCII whitespace. -/
def trimBytes (l : List Char) : List Char :=
  ((l.dropWhile isSpaceByte).reverse.dropWhile isSpaceByte).reverse

/-- The field-reading loop of `readNextSection`: returns the raw field
bytes and the unconsumed rest of the stream. -/
def readNextSectionAux : Bool → List Char → List Char → List Char × List Char
  | _, acc, [] => (acc, [])
  | oneLine, acc, c :: rest =>
    if oneLine = false ∧ c = '"' then
      match rest with
      | ',' :: rest2 => (acc, rest2)
      | _ => (acc, rest)
    else if c = ',' then (acc, rest)
    else if c = '"' then readNextSectionAux false acc rest
    else
      if oneLine = true ∧ rest.head? = some '\n' then (acc ++ [c], rest)
      else readNextSectionAux oneLine (acc ++ [c]) rest

/-- The `readNextSection` function: one trimmed field plus the unconsumed stream. -/
def readNextSection (input : List Char) : List Char × List Char :=
  let r := readNextSectionAux true [] input
  (trimBytes r.1, r.2)

/-- The record-trailer loop: consume bytes up to and including the next
line terminator (or the end of the stream). -/
def dropThroughNewline : List Char → List Char
  | [] => []
  | c :: rest => if c = '\n' then rest else dropThroughNewline rest

/-- The `while (!file.atEnd())` record loop of
`parseIconFileSymlinkMap`, accumulating into the multimap `m`.  Each
iteration consumes at least one byte, so fuel equal to the stream
length suffices. -/
def parseLoop : Nat → List Char → List (String × String) → List (String × String)
  | 0, _, m => m
  | _ + 1, [], m => m
  | fuel + 1, input, m =>
    let kr := readNextSection input
    let vr := readNextSection kr.2
    let m2 := m ++ (splitChar '\n' vr.1).map (fun v => (String.mk kr.1, String.mk v))
    parseLoop fuel (dropThroughNewline vr.2) m2

/-- The `parseIconFileSymlinkMap` function on the alias file's content. -/
def parseIconFileSymlinkMap (content : String) : List (String × String) :=
  parseLoop (content.data.length + 1) content.data []

/-! ## Symlink harvesting insertion (main.cpp lines 256-275)

For a discovered filesystem symlink, the harvested pair is inserted
only when the alias is not already among the values stored for the
canonical name: `if (!symlinksMap.values(linkTarget).contains(...))`. -/

/-- The values stored for a key in the multimap. -/
def valuesOf (m : List (String × String)) (key : String) : List String :=
  (m.filter (fun kv => kv.1 == key)).map (fun kv => kv.2)

/-- The harvesting pass's guarded insertion. -/
def harvestInsert (m : List (String × String)) (target aliasName : String) :
    List (String × String) :=
  if (valuesOf m target).contains aliasName then m
  else (target, aliasName) :: m

/-! ## Scale encoding and the per-icon builder (main.cpp lines 32-57,
302-319)

A source image is abstracted by a decodability flag
(`QImageReader::canRead`) and an identity; the opaque
encode step is modelled from the spec ("encode(image, targetSize,
quality) → bytes") as an injective function of the image and the scale.
`writeScaledImage` returns `none` for a fatal `dciChecker` abort,
`some (t, false)` for an unreadable image (icon skipped), and
`some (t, true)` on success. -/

/-- A source image file: can it be decoded, and which image is it. -/
structure ImageFile where
  decodable : Bool
  ident : Nat
deriving DecidableEq

/-- Modelled from the spec: the opaque
`encode(image, targetSize, quality)` payload for one image at one
scale (the image codec collaborator is external, spec section 6). -/
def encData (img : ImageFile) (scale : Nat) : Nat :=
  img.ident * 10 + scale

/-- The `writeScaledImage(dci, imageFile, targetDir, scale)` step. -/
def writeScaledImage (t : DciTree) (img : ImageFile) (targetDir : String)
    (scale : Nat) : Option (DciTree × Bool) :=
  if img.decodable = false then some (t, false)
  else
    match mkdir t (targetDir ++ "/" ++ toString scale) with
    | none => none
    | some t1 =>
      match writeFile t1 (targetDir ++ "/" ++ toString scale ++ "/1.webp") (encData img scale) with
      | none => none
      | some t2 => some (t2, true)

/-- The `writeImage` step: scale 2 then scale 3, with `&&` short-circuit. -/
def writeImage (t : DciTree) (img : ImageFile) (targetDir : String) :
    Option (DciTree × Bool) :=
  match writeScaledImage t img targetDir 2 with
  | none => none
  | some (t1, false) => some (t1, false)
  | some (t1, true) => writeScaledImage t1 img targetDir 3

/-- Outcome of building one icon's container (main.cpp lines 302-319):
a `dciChecker` failure aborts the run (`fatal`), an unreadable light
source skips the icon (`skipped`, nothing serialized), otherwise the
finished tree is serialized (`written`). -/
inductive BuildResult where
  | fatal : BuildResult
  | skipped : BuildResult
  | written (t : DciTree) : BuildResult
deriving DecidableEq

/-- The per-icon container construction: `mkdir /256`,
`mkdir /256/normal.light`, encode the light source (skip the icon if
unreadable), `mkdir /256/normal.dark`, then either encode the sibling
dark source (return value ignored) or mirror the light subtree with
`recursionLink`. -/
def buildIcon (light : ImageFile) (dark : Option ImageFile) : BuildResult :=
  let t0 : DciTree := ⟨[]⟩
  match mkdir t0 "/256" with
  | none => BuildResult.fatal
  | some t1 =>
    match mkdir t1 "/256/normal.light" with
    | none => BuildResult.fatal
    | some t2 =>
      match writeImage t2 light "/256/normal.light" with
      | none => BuildResult.fatal
      | some (_, false) => BuildResult.skipped
      | some (t3, true) =>
        match mkdir t3 "/256/normal.dark" with
        | none => BuildResult.fatal
        | some t4 =>
          match dark with
          | some d =>
            match writeImage t4 d "/256/normal.dark" with
            | none => BuildResult.fatal
            | some (t5, _) => BuildResult.written t5
          | none =>
            match recursionLink t4 "/256/normal.light" "/256/normal.dark" with
            | (t5, true) => BuildResult.written t5
            | (_, false) => BuildResult.fatal

/-- The file-node paths of a tree. -/
def filePathsOf (t : DciTree) : List (List String) :=
  t.nodes.filterMap fun pe =>
    match pe.2 with
    | Entry.file _ => some pe.1
    | _ => none

/-- The link-node paths of a tree. -/
def linkPathsOf (t : DciTree) : List (List String) :=
  t.nodes.filterMap fun pe =>
    match pe.2 with
    | Entry.lnk _ => some pe.1
    | _ => none

/-- Is an entry a leaf (File or Link, not Directory)? -/
def isLeafEntry : Entry → Bool
  | Entry.dir => false
  | _ => true

/-- The non-directory entries under `/256/normal.dark`. -/
def darkLeafEntries (t : DciTree) : List (List String × Entry) :=
  t.nodes.filter fun pe =>
    decide (pe.1.take 2 = ["256", "normal.dark"]) && isLeafEntry pe.2

/-- The container built for a decodable light-only icon. -/
def lightOnlyTree (img : ImageFile) : DciTree :=
  ⟨[(["256"], Entry.dir),
    (["256", "normal.light"], Entry.dir),
    (["256", "normal.light", "2"], Entry.dir),
    (["256", "normal.light", "2", "1.webp"], Entry.file (encData img 2)),
    (["256", "normal.light", "3"], Entry.dir),
    (["256", "normal.light", "3", "1.webp"], Entry.file (encData img 3)),
    (["256", "normal.dark"], Entry.dir),
    (["256", "normal.dark", "2"], Entry.dir),
    (["256", "normal.dark", "2", "1.webp"], Entry.lnk "/256/normal.light/2/1.webp"),
    (["256", "normal.dark", "3"], Entry.dir),
    (["256", "normal.dark", "3", "1.webp"], Entry.lnk "/256/normal.light/3/1.webp")]⟩

/-- The container built when both tone sources decode. -/
def bothTonesTree (light darkImg : ImageFile) : DciTree :=
  ⟨[(["256"], Entry.dir),
    (["256", "normal.light"], Entry.dir),
    (["256", "normal.light", "2"], Entry.dir),
    (["256", "normal.light", "2", "1.webp"], Entry.file (encData light 2)),
    (["256", "normal.light", "3"], Entry.dir),
    (["256", "normal.light", "3", "1.webp"], Entry.file (encData light 3)),
    (["256", "normal.dark"], Entry.dir),
    (["256", "normal.dark", "2"], Entry.dir),
    (["256", "normal.dark", "2", "1.webp"], Entry.file (encData darkImg 2)),
    (["256", "normal.dark", "3"], Entry.dir),
    (["256", "normal.dark", "3", "1.webp"], Entry.file (encData darkImg 3))]⟩

/-- The container built when the dark sibling exists but does not
decode: the dark directory stays empty. -/
def darkUndecodableTree (img : ImageFile) : DciTree :=
  ⟨[(["256"], Entry.dir),
    (["256", "normal.light"], Entry.dir),
    (["256", "normal.light", "2"], Entry.dir),
    (["256", "normal.light", "2", "1.webp"], Entry.file (encData img 2)),
    (["256", "normal.light", "3"], Entry.dir),
    (["256", "normal.light", "3", "1.webp"], Entry.file (encData img 3)),
    (["256", "normal.dark"], Entry.dir)]⟩

/-! ## Driver loop over candidates (main.cpp lines 280-322)

A candidate is a matched regular (non-symlink) source file outside any
`dark/` directory, reaching line 297 of the loop body.  The driver
state tracks the `.dci` files present in the output directory and the
alias symlinks created so far.  An icon whose output file already
exists is skipped before anything is built; `makeLink` materializes the
aliases stored for the icon's base name; a `dciChecker` failure
(`exit(-6)`) aborts the whole run. -/

/-- One build candidate: base name, light source, optional sibling
`dark/<filename>` source. -/
structure Candidate where
  baseName : String
  light : ImageFile
  dark : Option ImageFile
deriving DecidableEq

/-- Output-directory state: existing `.dci` files and created alias
symlinks `(linkName, target)`. -/
structure DriverState where
  outFiles : List String
  symlinks : List (String × String)
deriving DecidableEq

/-- Per-candidate outcome in the driver loop. -/
inductive Outcome where
  | skippedExists : Outcome
  | skippedImage : Outcome
  | fatalError : Outcome
  | wrote (name : String) : Outcome
deriving DecidableEq

/-- The `makeLink` step (main.cpp lines 128-141): for each alias stored under
the icon's base name, create `<alias>.dci` pointing at the written
container file; creation failures only warn, so the created pairs are
recorded unconditionally. -/
def makeLink (baseName outName : String) (m : List (String × String)) :
    List (String × String) :=
  if (valuesOf m baseName).isEmpty = false then
    (valuesOf m baseName).map (fun v => (v ++ ".dci", outName))
  else []

/-- One iteration of the build loop for a candidate (main.cpp lines
297-321). -/
def stepIcon (aliasMap : List (String × String)) (st : DriverState)
    (c : Candidate) : DriverState × Outcome :=
  if st.outFiles.contains (c.baseName ++ ".dci") then (st, Outcome.skippedExists)
  else
    match buildIcon c.light c.dark with
    | BuildResult.fatal => (st, Outcome.fatalError)
    | BuildResult.skipped => (st, Outcome.skippedImage)
    | BuildResult.written _ =>
      (⟨st.outFiles ++ [c.baseName ++ ".dci"],
          st.symlinks ++ makeLink c.baseName (c.baseName ++ ".dci") aliasMap⟩,
        Outcome.wrote (c.baseName ++ ".dci"))

/-- The driver loop over the remaining candidates; a fatal outcome
terminates the run (`exit(-6)`). -/
def runIcons (aliasMap : List (String × String)) :
    DriverState → List Candidate → DriverState × List Outcome
  | st, [] => (st, [])
  | st, c :: cs =>
    match stepIcon aliasMap st c with
    | (st1, Outcome.fatalError) => (st1, [Outcome.fatalError])
    | (st1, o) =>
      match runIcons aliasMap st1 cs with
      | (st2, os) => (st2, o :: os)

/-! ## Pass ordering over source directories (main.cpp lines 249-323)

`main` iterates the source directories once; *inside* that loop it
first walks the directory harvesting symlinks ("read all links first"),
then walks it again building containers.  The temporal claim is about
the order of these events, modelled as a trace. -/

/-- The files of one source directory: the symlink files (harvested)
and the regular icon files (built), identified by numbers. -/
structure SourceDir where
  links : List Nat
  icons : List Nat
deriving DecidableEq

/-- A trace event: harvesting one symlink of directory `d`, or
building one icon of directory `d`. -/
inductive Event where
  | harvest (d : Nat) (name : Nat) : Event
  | build (d : Nat) (name : Nat) : Event
deriving DecidableEq

/-- Which directory an event belongs to. -/
def Event.dirOf : Event → Nat
  | Event.harvest d _ => d
  | Event.build d _ => d

/-- Is the event a harvest? -/
def Event.isHarvestE : Event → Bool
  | Event.harvest _ _ => true
  | Event.build _ _ => false

/-- Is the event a build? -/
def Event.isBuildE : Event → Bool
  | Event.harvest _ _ => false
  | Event.build _ _ => true

/-- The events of one source directory: all of its harvests, then all
of its builds. -/
def dirTrace (d : Nat) (sd : SourceDir) : List Event :=
  sd.links.map (Event.harvest d) ++ sd.icons.map (Event.build d)

/-- The whole run's trace, directories processed in order. -/
def mainTraceAux : Nat → List SourceDir → List Event
  | _, [] => []
  | d, sd :: rest => dirTrace d sd ++ mainTraceAux (d + 1) rest

/-- The trace of `main`'s loop over the given source directories. -/
def mainTrace (dirs : List SourceDir) : List Event :=
  mainTraceAux 0 dirs

/-- No harvest event (of any directory) occurs in the list. -/
def noHarvestAtAll (tr : List Event) : Bool :=
  tr.all fun e => e.isHarvestE = false

/-- No harvest event of directory `d` occurs in the list. -/
def noHarvestOf (d : Nat) (tr : List Event) : Bool :=
  tr.all fun e => !(e.isHarvestE && e.dirOf == d)

/-- The claimed global ordering: once any container is built, no
harvesting happens afterwards. -/
def globalHarvestFirst : List Event → Bool
  | [] => true
  | e :: rest =>
    (if e.isBuildE then noHarvestAtAll rest else true) && globalHarvestFirst rest

/-- The per-directory ordering: once a container of directory `d` is
built, no symlink of directory `d` is harvested afterwards. -/
def perDirHarvestFirst : List Event → Bool
  | [] => true
  | e :: rest =>
    (if e.isBuildE then noHarvestOf e.dirOf rest else true) && perDirHarvestFirst rest

/-- Two source directories: the first holds one regular icon, the
second one symlink. -/
def twoDirRun : List SourceDir :=
  [⟨[], [7]⟩, ⟨[5], []⟩]

/-! ## Exit codes (main.cpp lines 16-21, 104-109, 218-240)

Each fatal exit site of the program, with the code it passes to
`showHelp`/`exit`/`return`. -/

/-- The fatal failure classes, one per exit site. -/
inductive FailureClass where
  | noArguments : FailureClass
  | noSourceDir : FailureClass
  | noOutputOption : FailureClass
  | cannotCreateOutputDir : FailureClass
  | outputDirExists : FailureClass
  | dciWriteFailure : FailureClass
  | aliasFileOpenFailure : FailureClass
deriving DecidableEq

/-- The exit status used at each site: `showHelp(-1)` for a bare
invocation, `showHelp(-2)` for a missing source directory,
`showHelp(-4)` for a missing `-o`, `showHelp(-5)` for an uncreatable
output directory, `return -1` for a pre-existing output directory,
`exit(-6)` in `dciChecker`, `exit(-7)` on an unopenable alias file. -/
def exitCode : FailureClass → Int
  | FailureClass.noArguments => -1
  | FailureClass.noSourceDir => -2
  | FailureClass.noOutputOption => -4
  | FailureClass.cannotCreateOutputDir => -5
  | FailureClass.outputDirExists => -1
  | FailureClass.dciWriteFailure => -6
  | FailureClass.aliasFileOpenFailure => -7

/-! ## Maintenance mode (`doFixDarkTheme`, main.cpp lines 143-173)

For every top-level entry (full paths) that is a directory, for every
child directory whose name ends in `.light`, substitute the suffix to
get the dark sibling; if it does not exist, `mkdir` it and mirror the
light subtree into it.  `dciChecker` failures are fatal (`none`). -/

/-- The inner loop over the children of one size directory. -/
def fixDarkInner (t : DciTree) : List String → Option DciTree
  | [] => some t
  | j :: rest =>
    if typeOf t j ≠ NodeType.directory ∨ strEndsWith j ".light" = false then
      fixDarkInner t rest
    else
      if existsPath t (j.dropRight 5 ++ "dark") = true then fixDarkInner t rest
      else
        match mkdir t (j.dropRight 5 ++ "dark") with
        | none => none
        | some t1 =>
          match recursionLink t1 j (j.dropRight 5 ++ "dark") with
          | (t2, true) => fixDarkInner t2 rest
          | (_, false) => none

/-- The outer loop over the top-level entries. -/
def fixDarkOuter (t : DciTree) : List String → Option DciTree
  | [] => some t
  | i :: rest =>
    if typeOf t i ≠ NodeType.directory then fixDarkOuter t rest
    else
      match fixDarkInner t (listDir t i false) with
      | none => none
      | some t1 => fixDarkOuter t1 rest

/-- The `doFixDarkTheme` mode on the container tree (the surrounding
read/serialize steps are external). -/
def doFixDarkTheme (t : DciTree) : Option DciTree :=
  fixDarkOuter t (listDir t "/" false)

/-- Every light-suffixed child directory of every top-level size
directory already has its suffix-substituted dark sibling. -/
def darksPresent (t : DciTree) : Prop :=
  ∀ i ∈ listDir t "/" false, typeOf t i = NodeType.directory →
    ∀ j ∈ listDir t i false, typeOf t j = NodeType.directory →
      strEndsWith j ".light" = true →
        existsPath t (j.dropRight 5 ++ "dark") = true

instance (t : DciTree) : Decidable (darksPresent t) := by
  unfold darksPresent
  exact inferInstance

/-- A container whose light directory already has its dark sibling. -/
def fixedContainer : DciTree :=
  ⟨[(["256"], Entry.dir),
    (["256", "normal.light"], Entry.dir),
    (["256", "normal.light", "2"], Entry.dir),
    (["256", "normal.light", "2", "1.webp"], Entry.file 42),
    (["256", "normal.dark"], Entry.dir),
    (["256", "normal.dark", "2"], Entry.dir),
    (["256", "normal.dark", "2", "1.webp"], Entry.lnk "/256/normal.light/2/1.webp")]⟩

/-- A driver state whose output directory already holds `icon.dci`. -/
def occupiedState : DriverState :=
  ⟨["icon.dci"], []⟩

/-- A decodable light-only candidate named `icon`. -/
def iconCandidate : Candidate :=
  ⟨"icon", ⟨true, 0⟩, none⟩

/-- A candidate named `icon` whose light source does not decode. -/
def badIconCandidate : Candidate :=
  ⟨"icon", ⟨false, 0⟩, none⟩

/-! ## Theorems -/

/-- Building an icon whose light source cannot be decoded is skipped,
whatever the dark source looks like. -/
theorem buildIcon_skipped_of_undecodable (n : Nat) (d : Option ImageFile) :
    buildIcon ⟨false, n⟩ d = BuildResult.skipped := rfl

set_option maxHeartbeats 4000000 in
/-- C1: for a decodable light-only icon the builder produces exactly
the canonical tree: one File per scale under `/256/normal.light`
(`/256/normal.light/2/1.webp` and `/256/normal.light/3/1.webp` are the
only File nodes), and every leaf of `/256/normal.dark` is a Link node
whose target is the corresponding light leaf — no byte payload is
duplicated into the dark subtree. -/
theorem C1_light_only_tree (img : ImageFile) (h : img.decodable = true) :
    buildIcon img none = BuildResult.written (lightOnlyTree img) ∧
    filePathsOf (lightOnlyTree img) =
      [["256", "normal.light", "2", "1.webp"], ["256", "normal.light", "3", "1.webp"]] ∧
    darkLeafEntries (lightOnlyTree img) =
      [(["256", "normal.dark", "2", "1.webp"], Entry.lnk "/256/normal.light/2/1.webp"),
        (["256", "normal.dark", "3", "1.webp"], Entry.lnk "/256/normal.light/3/1.webp")] := by
  obtain ⟨dec, n⟩ := img
  cases h
  exact ⟨rfl, rfl, rfl⟩

/-- C1 witness at a concrete decodable image. -/
theorem C1_light_only_tree_witness :
    (⟨true, 0⟩ : ImageFile).decodable = true ∧
    (buildIcon ⟨true, 0⟩ none = BuildResult.written (lightOnlyTree ⟨true, 0⟩) ∧
      filePathsOf (lightOnlyTree ⟨true, 0⟩) =
        [["256", "normal.light", "2", "1.webp"], ["256", "normal.light", "3", "1.webp"]] ∧
      darkLeafEntries (lightOnlyTree ⟨true, 0⟩) =
        [(["256", "normal.dark", "2", "1.webp"], Entry.lnk "/256/normal.light/2/1.webp"),
          (["256", "normal.dark", "3", "1.webp"], Entry.lnk "/256/normal.light/3/1.webp")]) :=
  ⟨rfl, C1_light_only_tree ⟨true, 0⟩ rfl⟩

/-- C2 counterexample: the alias-file parser inserts unconditionally,
so a file carrying the record `foo,bar` twice leaves the pair
`(foo, bar)` twice in the multimap — inserting an existing pair via the
parser is not a no-op. -/
theorem C2_parser_duplicates_cex :
    ¬((parseIconFileSymlinkMap "foo,bar\nfoo,bar").count ("foo", "bar") ≤ 1) := by
  decide

/-- C2 (amended): harvesting a symlink whose (canonical, alias) pair is
already in the multimap is a no-op, but the alias-file parser inserts
unconditionally, so duplicated records yield duplicate pairs. -/
theorem C2_alias_idempotence_amended :
    (∀ (m : List (String × String)) (t a : String),
        harvestInsert (harvestInsert m t a) t a = harvestInsert m t a) ∧
    parseIconFileSymlinkMap "foo,bar\nfoo,bar" = [("foo", "bar"), ("foo", "bar")] := by
  constructor
  · intro m t a
    by_cases hc : (valuesOf m t).contains a = true
    · have e1 : harvestInsert m t a = m := by
        unfold harvestInsert
        rw [if_pos hc]
      rw [e1]
      exact e1
    · have e1 : harvestInsert m t a = (t, a) :: m := by
        unfold harvestInsert
        rw [if_neg hc]
      have hv : valuesOf ((t, a) :: m) t = a :: valuesOf m t := by
        unfold valuesOf
        simp [List.filter_cons]
      have h2 : (valuesOf ((t, a) :: m) t).contains a = true := by
        rw [hv]
        simp
      rw [e1]
      unfold harvestInsert
      rw [if_pos h2]
  · rfl

/-- Every event of the tail trace belongs to a directory of index at
least the starting index. -/
theorem dirOf_mem_mainTraceAux (k : Nat) (ds : List SourceDir) (e : Event)
    (he : e ∈ mainTraceAux k ds) : k ≤ e.dirOf := by
  induction ds generalizing k with
  | nil => simp [mainTraceAux] at he
  | cons sd rest ih =>
    simp only [mainTraceAux, List.mem_append] at he
    rcases he with h1 | h2
    · simp only [dirTrace, List.mem_append, List.mem_map] at h1
      rcases h1 with ⟨x, _, rfl⟩ | ⟨x, _, rfl⟩ <;> simp [Event.dirOf]
    · exact Nat.le_of_succ_le (ih (k + 1) h2)

/-- A tail trace of later directories harvests nothing for an earlier
directory. -/
theorem noHarvestOf_mainTraceAux (d k : Nat) (ds : List SourceDir) (h : d < k) :
    noHarvestOf d (mainTraceAux k ds) = true := by
  unfold noHarvestOf
  rw [List.all_eq_true]
  intro e he
  have hk := dirOf_mem_mainTraceAux k ds e he
  have hne : (e.dirOf == d) = false := by
    rw [beq_eq_false_iff_ne]
    omega
  simp [hne]

/-- The `noHarvestOf` check distributes over concatenation. -/
theorem noHarvestOf_append (d : Nat) (xs ys : List Event) :
    noHarvestOf d (xs ++ ys) = (noHarvestOf d xs && noHarvestOf d ys) :=
  List.all_append

/-- Build events harvest nothing. -/
theorem noHarvestOf_builds (d k : Nat) (bs : List Nat) :
    noHarvestOf d (bs.map (Event.build k)) = true := by
  unfold noHarvestOf
  rw [List.all_eq_true]
  intro e he
  simp only [List.mem_map] at he
  obtain ⟨x, _, rfl⟩ := he
  rfl

/-- The cons equation of `perDirHarvestFirst`. -/
theorem pdhf_cons (e : Event) (tr : List Event) :
    perDirHarvestFirst (e :: tr) =
      ((if e.isBuildE then noHarvestOf e.dirOf tr else true) && perDirHarvestFirst tr) :=
  rfl

/-- Leading harvest events never violate the per-directory ordering. -/
theorem pdhf_harvests (k : Nat) (ls : List Nat) (tr : List Event) :
    perDirHarvestFirst (ls.map (Event.harvest k) ++ tr) = perDirHarvestFirst tr := by
  induction ls with
  | nil => rfl
  | cons x ls ih =>
    rw [List.map_cons, List.cons_append, pdhf_cons, ih]
    simp [Event.isBuildE]

/-- Leading build events of directory `k` keep the per-directory
ordering when the tail holds it and harvests nothing for `k`. -/
theorem pdhf_builds_prepend (k : Nat) (bs : List Nat) (tr : List Event)
    (hno : noHarvestOf k tr = true) (htr : perDirHarvestFirst tr = true) :
    perDirHarvestFirst (bs.map (Event.build k) ++ tr) = true := by
  induction bs with
  | nil => simpa using htr
  | cons b bs ih =>
    rw [List.map_cons, List.cons_append, pdhf_cons, Bool.and_eq_true]
    refine ⟨?_, ih⟩
    simp [Event.isBuildE, Event.dirOf, noHarvestOf_append, noHarvestOf_builds, hno]

/-- The per-directory ordering holds of every tail of the main loop. -/
theorem pdhf_mainTraceAux (k : Nat) (ds : List SourceDir) :
    perDirHarvestFirst (mainTraceAux k ds) = true := by
  induction ds generalizing k with
  | nil => rfl
  | cons sd rest ih =>
    show perDirHarvestFirst (dirTrace k sd ++ mainTraceAux (k + 1) rest) = true
    unfold dirTrace
    rw [List.append_assoc, pdhf_harvests]
    exact pdhf_builds_prepend k sd.icons _
      (noHarvestOf_mainTraceAux k (k + 1) rest (Nat.lt_succ_self k))
      (ih (k + 1))

/-- C3 counterexample: with two source directories — the first holding
a regular icon, the second a symlink — the main loop builds the first
directory's container before it harvests the second directory's
symlink, so harvesting does not run to completion over all source
directories before the first container is built. -/
theorem C3_global_harvest_order_cex :
    globalHarvestFirst (mainTrace twoDirRun) = false := by
  decide

/-- C3 (amended): within each source directory the harvesting walk
completes before any of that directory's containers is built — once a
container of directory `d` is built, no symlink of directory `d` is
harvested later — but containers of an earlier directory are built
before a later directory is harvested. -/
theorem C3_per_directory_harvest_order (dirs : List SourceDir) :
    perDirHarvestFirst (mainTrace dirs) = true :=
  pdhf_mainTraceAux 0 dirs

/-- The cons equation of the driver loop. -/
theorem runIcons_cons (am : List (String × String)) (st : DriverState)
    (c : Candidate) (cs : List Candidate) :
    runIcons am st (c :: cs) =
      (match stepIcon am st c with
        | (st1, Outcome.fatalError) => (st1, [Outcome.fatalError])
        | (st1, o) =>
          (match runIcons am st1 cs with
            | (st2, os) => (st2, o :: os))) :=
  rfl

/-- C4: an icon whose `<name>.dci` output file already exists is
skipped: the step leaves the driver state untouched (so no alias
symlink is recreated), reports no error, and the run continues with the
remaining candidates. -/
theorem C4_skip_existing_output (am : List (String × String)) (st : DriverState)
    (c : Candidate) (cs : List Candidate)
    (h : st.outFiles.contains (c.baseName ++ ".dci") = true) :
    stepIcon am st c = (st, Outcome.skippedExists) ∧
    runIcons am st (c :: cs) =
      ((runIcons am st cs).1, Outcome.skippedExists :: (runIcons am st cs).2) := by
  have h1 : stepIcon am st c = (st, Outcome.skippedExists) := by
    unfold stepIcon
    rw [if_pos h]
  refine ⟨h1, ?_⟩
  rw [runIcons_cons, h1]

/-- C4 witness at a concrete occupied output directory. -/
theorem C4_skip_existing_output_witness :
    occupiedState.outFiles.contains (iconCandidate.baseName ++ ".dci") = true ∧
    (stepIcon [] occupiedState iconCandidate = (occupiedState, Outcome.skippedExists) ∧
      runIcons [] occupiedState [iconCandidate] =
        ((runIcons [] occupiedState []).1,
          Outcome.skippedExists :: (runIcons [] occupiedState []).2)) :=
  ⟨by decide, C4_skip_existing_output [] occupiedState iconCandidate [] (by decide)⟩

/-- C7: an icon whose light source cannot be decoded is skipped: no
output file is recorded, the state is untouched, and the driver
continues with the remaining candidates instead of aborting. -/
theorem C7_undecodable_light_skipped (am : List (String × String)) (st : DriverState)
    (c : Candidate) (cs : List Candidate)
    (h1 : st.outFiles.contains (c.baseName ++ ".dci") = false)
    (h2 : c.light.decodable = false) :
    stepIcon am st c = (st, Outcome.skippedImage) ∧
    runIcons am st (c :: cs) =
      ((runIcons am st cs).1, Outcome.skippedImage :: (runIcons am st cs).2) := by
  have hb : buildIcon c.light c.dark = BuildResult.skipped := by
    obtain ⟨b, l, dk⟩ := c
    obtain ⟨dec, n⟩ := l
    have h3 : dec = false := h2
    subst h3
    exact buildIcon_skipped_of_undecodable n dk
  have hn : ¬(st.outFiles.contains (c.baseName ++ ".dci") = true) := by
    rw [h1]
    exact Bool.false_ne_true
  have hs : stepIcon am st c = (st, Outcome.skippedImage) := by
    unfold stepIcon
    rw [if_neg hn, hb]
  refine ⟨hs, ?_⟩
  rw [runIcons_cons, hs]

/-- C7 witness at a concrete undecodable candidate. -/
theorem C7_undecodable_light_skipped_witness :
    (DriverState.mk [] []).outFiles.contains (badIconCandidate.baseName ++ ".dci") = false ∧
    badIconCandidate.light.decodable = false ∧
    (stepIcon [] ⟨[], []⟩ badIconCandidate = (⟨[], []⟩, Outcome.skippedImage) ∧
      runIcons [] ⟨[], []⟩ [badIconCandidate] =
        ((runIcons [] ⟨[], []⟩ []).1,
          Outcome.skippedImage :: (runIcons [] ⟨[], []⟩ []).2)) :=
  ⟨by decide, rfl,
    C7_undecodable_light_skipped [] ⟨[], []⟩ badIconCandidate [] (by decide) rfl⟩

set_option maxHeartbeats 4000000 in
/-- C8: when both the light source and the sibling dark source decode,
the built container's dark-tone subtree consists of independently
encoded File nodes at both configured scales, and the container holds
no Link node at all. -/
theorem C8_dark_source_files (l d : ImageFile) (hl : l.decodable = true)
    (hd : d.decodable = true) :
    buildIcon l (some d) = BuildResult.written (bothTonesTree l d) ∧
    darkLeafEntries (bothTonesTree l d) =
      [(["256", "normal.dark", "2", "1.webp"], Entry.file (encData d 2)),
        (["256", "normal.dark", "3", "1.webp"], Entry.file (encData d 3))] ∧
    linkPathsOf (bothTonesTree l d) = [] := by
  obtain ⟨dl, nl⟩ := l
  obtain ⟨dd, nd⟩ := d
  have h1 : dl = true := hl
  have h2 : dd = true := hd
  subst h1
  subst h2
  exact ⟨rfl, rfl, rfl⟩

/-- C8 witness at concrete decodable light and dark sources. -/
theorem C8_dark_source_files_witness :
    (⟨true, 0⟩ : ImageFile).decodable = true ∧
    (⟨true, 1⟩ : ImageFile).decodable = true ∧
    (buildIcon ⟨true, 0⟩ (some ⟨true, 1⟩) =
        BuildResult.written (bothTonesTree ⟨true, 0⟩ ⟨true, 1⟩) ∧
      darkLeafEntries (bothTonesTree ⟨true, 0⟩ ⟨true, 1⟩) =
        [(["256", "normal.dark", "2", "1.webp"], Entry.file (encData ⟨true, 1⟩ 2)),
          (["256", "normal.dark", "3", "1.webp"], Entry.file (encData ⟨true, 1⟩ 3))] ∧
      linkPathsOf (bothTonesTree ⟨true, 0⟩ ⟨true, 1⟩) = []) :=
  ⟨rfl, rfl, C8_dark_source_files ⟨true, 0⟩ ⟨true, 1⟩ rfl rfl⟩

/-- C9 counterexample: the bare-invocation help exit (a
missing-arguments failure) and the pre-existing output directory exit
are different failure classes but share the exit code `-1`. -/
theorem C9_exit_codes_cex :
    exitCode FailureClass.noArguments = exitCode FailureClass.outputDirExists ∧
    FailureClass.noArguments ≠ FailureClass.outputDirExists := by
  decide

/-- C9 (amended): the fatal failure classes carry pairwise distinct
small negative exit codes, except that the bare-invocation
missing-arguments exit and the pre-existing output directory exit both
use `-1`. -/
theorem C9_exit_codes_amended (c1 c2 : FailureClass) (h : exitCode c1 = exitCode c2) :
    c1 = c2 ∨
      (c1 = FailureClass.noArguments ∧ c2 = FailureClass.outputDirExists) ∨
      (c1 = FailureClass.outputDirExists ∧ c2 = FailureClass.noArguments) := by
  revert h
  cases c1 <;> cases c2 <;> decide

/-- C9 witness: the two distinct write-failure classes compared. -/
theorem C9_exit_codes_amended_witness :
    exitCode FailureClass.noArguments = exitCode FailureClass.outputDirExists ∧
    (FailureClass.noArguments = FailureClass.outputDirExists ∨
      (FailureClass.noArguments = FailureClass.noArguments ∧
        FailureClass.outputDirExists = FailureClass.outputDirExists) ∨
      (FailureClass.noArguments = FailureClass.outputDirExists ∧
        FailureClass.outputDirExists = FailureClass.noArguments)) :=
  ⟨rfl, C9_exit_codes_amended FailureClass.noArguments FailureClass.outputDirExists rfl⟩

set_option maxHeartbeats 4000000 in
/-- C10: when the sibling dark source exists but cannot be decoded, the
builder neither encodes dark files nor mirrors the light subtree: the
container is still serialized with `/256/normal.dark` an empty
directory, and the driver records a written outcome (not a fatal one),
continuing with the next icon. -/
theorem C10_undecodable_dark_empty (l d : ImageFile) (hl : l.decodable = true)
    (hd : d.decodable = false) :
    buildIcon l (some d) = BuildResult.written (darkUndecodableTree l) ∧
    typeOf (darkUndecodableTree l) "/256/normal.dark" = NodeType.directory ∧
    listDir (darkUndecodableTree l) "/256/normal.dark" true = [] ∧
    (∀ (am : List (String × String)) (st : DriverState) (b : String),
      st.outFiles.contains (b ++ ".dci") = false →
        (stepIcon am st ⟨b, l, some d⟩).2 = Outcome.wrote (b ++ ".dci")) := by
  obtain ⟨dl, nl⟩ := l
  obtain ⟨dd, nd⟩ := d
  have h1 : dl = true := hl
  have h2 : dd = false := hd
  subst h1
  subst h2
  have hbuild : buildIcon ⟨true, nl⟩ (some ⟨false, nd⟩) =
      BuildResult.written (darkUndecodableTree ⟨true, nl⟩) := rfl
  refine ⟨hbuild, rfl, rfl, ?_⟩
  intro am st b hB
  have hn : ¬(st.outFiles.contains (b ++ ".dci") = true) := by
    rw [hB]
    exact Bool.false_ne_true
  unfold stepIcon
  rw [if_neg hn, hbuild]

/-- C10 witness at a concrete icon with an undecodable dark sibling. -/
theorem C10_undecodable_dark_empty_witness :
    (⟨true, 0⟩ : ImageFile).decodable = true ∧
    (⟨false, 1⟩ : ImageFile).decodable = false ∧
    (buildIcon ⟨true, 0⟩ (some ⟨false, 1⟩) =
        BuildResult.written (darkUndecodableTree ⟨true, 0⟩) ∧
      typeOf (darkUndecodableTree ⟨true, 0⟩) "/256/normal.dark" = NodeType.directory ∧
      listDir (darkUndecodableTree ⟨true, 0⟩) "/256/normal.dark" true = [] ∧
      (∀ (am : List (String × String)) (st : DriverState) (b : String),
        st.outFiles.contains (b ++ ".dci") = false →
          (stepIcon am st ⟨b, ⟨true, 0⟩, some ⟨false, 1⟩⟩).2 =
            Outcome.wrote (b ++ ".dci"))) :=
  ⟨rfl, rfl, C10_undecodable_dark_empty ⟨true, 0⟩ ⟨false, 1⟩ rfl rfl⟩

/-- The inner maintenance loop leaves the tree untouched when every
light-suffixed directory in the worklist already has its dark
sibling. -/
theorem fixDarkInner_noop (t : DciTree) (js : List String)
    (h : ∀ j ∈ js, typeOf t j = NodeType.directory → strEndsWith j ".light" = true →
      existsPath t (j.dropRight 5 ++ "dark") = true) :
    fixDarkInner t js = some t := by
  induction js with
  | nil => rfl
  | cons j rest ih =>
    unfold fixDarkInner
    by_cases hc : typeOf t j ≠ NodeType.directory ∨ strEndsWith j ".light" = false
    · rw [if_pos hc]
      exact ih fun x hx => h x (List.mem_cons_of_mem j hx)
    · rw [if_neg hc]
      push_neg at hc
      have hdir : typeOf t j = NodeType.directory := hc.1
      have hlight : strEndsWith j ".light" = true := by
        cases hsw : strEndsWith j ".light"
        · exact absurd hsw hc.2
        · rfl
      have he := h j (List.mem_cons_self j rest) hdir hlight
      rw [if_pos he]
      exact ih fun x hx => h x (List.mem_cons_of_mem j hx)

/-- The outer maintenance loop leaves the tree untouched when every
light-suffixed child of every directory in the worklist already has its
dark sibling. -/
theorem fixDarkOuter_noop (t : DciTree) (is : List String)
    (h : ∀ i ∈ is, typeOf t i = NodeType.directory →
      ∀ j ∈ listDir t i false, typeOf t j = NodeType.directory →
        strEndsWith j ".light" = true →
          existsPath t (j.dropRight 5 ++ "dark") = true) :
    fixDarkOuter t is = some t := by
  induction is with
  | nil => rfl
  | cons i rest ih =>
    unfold fixDarkOuter
    by_cases hc : typeOf t i ≠ NodeType.directory
    · rw [if_pos hc]
      exact ih fun x hx => h x (List.mem_cons_of_mem i hx)
    · rw [if_neg hc]
      rw [fixDarkInner_noop t (listDir t i false)
        (h i (List.mem_cons_self i rest) (not_not.mp hc))]
      exact ih fun x hx => h x (List.mem_cons_of_mem i hx)

/-- C6: maintenance mode only fills genuine gaps — on a container whose
every light-tone directory already has its suffix-substituted dark
sibling it mutates nothing, so the output tree equals the input tree
(no light subtree is touched and no dark subtree is overwritten). -/
theorem C6_fix_dark_noop (t : DciTree) (h : darksPresent t) :
    doFixDarkTheme t = some t :=
  fixDarkOuter_noop t (listDir t "/" false) h

/-- C6 witness on a concrete already-fixed container. -/
theorem C6_fix_dark_noop_witness :
    darksPresent fixedContainer ∧ doFixDarkTheme fixedContainer = some fixedContainer :=
  ⟨by decide, C6_fix_dark_noop fixedContainer (by decide)⟩

/-- C5: on the quoted multi-line alias input `foo,"\nbar\nbaz\n"` the
parser produces exactly the two multimap entries `(foo, bar)` and
`(foo, baz)` — one alias per embedded line, not one concatenated
string. -/
theorem C5_quoted_multiline_parse :
    parseIconFileSymlinkMap "foo,\"\nbar\nbaz\n\"" = [("foo", "bar"), ("foo", "baz")] := by
  rfl

end DciIconTheme
